import Mathlib

/-!
Shallow embedding of `remotion-renderer/renderer/render-cli.js` and verification
of its specification claims.

Strings of the JavaScript program are modelled as lists of characters
(`JStr`), JavaScript numbers as rationals, and the external collaborator
services (`validateTsxFile`, `ensureBrowser`, `createTempProject`, `bundle`,
`selectComposition`, `renderMedia`) as oracles recorded in an environment
`Env`: each oracle entry is the outcome that the corresponding call returns
in the run being modelled.  The orchestrator `main` is translated statement
by statement from the source; its observable behaviour is a list of events
plus the process exit code.
-/

namespace RenderCli

/-- A JavaScript string, modelled as its list of characters. -/
abbrev JStr := List Char

/-- Embed a Lean string literal as a `JStr`. -/
def str (s : String) : JStr := s.toList

/-- The apostrophe character (code 39). -/
def apos : Char := Char.ofNat 39

/-- The double-quote character (code 34). -/
def dquote : Char := Char.ofNat 34

/-- Is `c` one of the two quote characters of the regex `[\x22\x27]`? -/
def isQuoteChar (c : Char) : Bool := c = dquote || c = apos

/-- Model of `value.replace(/^[\x22\x27]|[\x22\x27]$/g, \x27\x27)` from
`parseArgs` (render-cli.js line 30): remove one leading quote character if
present, then one trailing quote character if present. -/
def stripQuotes (v : JStr) : JStr :=
  let v1 : JStr :=
    match v with
    | [] => []
    | c :: rest => if isQuoteChar c then rest else c :: rest
  match v1.getLast? with
  | some c => if isQuoteChar c then v1.dropLast else v1
  | none => v1

/-- Model of `String.prototype.indexOf` for a single character: index of the
first occurrence, `none` when absent (JS returns -1). -/
def idxOf (c : Char) : JStr → Option Nat
  | [] => none
  | x :: xs => if x = c then some 0 else (idxOf c xs).map (· + 1)

/-- A JavaScript value stored in the `args` object built by `parseArgs`:
a string, the boolean `true`, or the `_positional` array of strings. -/
inductive JsVal
  | vstr (s : JStr)
  | vtrue
  | varr (xs : List JStr)
deriving DecidableEq, Repr

/-- JavaScript truthiness of the values that can appear in `args`:
a string is truthy iff nonempty; `true` and arrays are truthy. -/
def truthy : JsVal → Bool
  | .vstr s => s ≠ []
  | .vtrue => true
  | .varr _ => true

/-- Truthiness of a possibly-undefined value (`none` models `undefined`). -/
def jsTruthyO : Option JsVal → Bool
  | none => false
  | some v => truthy v

/-- The `args` object of `parseArgs`: an association list of properties,
most recent assignment first. -/
abbrev Args := List (JStr × JsVal)

/-- Property read `args[k]`; `none` models `undefined`. -/
def getProp (a : Args) (k : JStr) : Option JsVal :=
  match a with
  | [] => none
  | (k2, v) :: rest => if k2 = k then some v else getProp rest k

/-- Property assignment `args[k] = v` (later assignments shadow earlier ones). -/
def setKey (a : Args) (k : JStr) (v : JsVal) : Args := (k, v) :: a

/-- The key under which `parseArgs` stores positional arguments. -/
def posKey : JStr := str "_positional"

/-- Model of the positional branch of `parseArgs` (lines 34-38):
`if (!args._positional) args._positional = [arg]; else args._positional.push(arg)`.
Returns `none` when the JS code would throw (push on a truthy non-array). -/
def addPositional (a : Args) (arg : JStr) : Option Args :=
  match getProp a posKey with
  | none => some (setKey a posKey (.varr [arg]))
  | some (.varr xs) => some (setKey a posKey (.varr (xs ++ [arg])))
  | some v => if truthy v then none else some (setKey a posKey (.varr [arg]))

/-- Model of one iteration of the `forEach` loop in `parseArgs`
(render-cli.js lines 23-39). -/
def parseArg1 (a : Args) (arg : JStr) : Option Args :=
  if (str "--").isPrefixOf arg then
    match idxOf '=' arg with
    | some eqIndex =>
      if eqIndex > 0 then
        some (setKey a ((arg.take eqIndex).drop 2) (.vstr (stripQuotes (arg.drop (eqIndex + 1)))))
      else
        some (setKey a (arg.drop 2) .vtrue)
    | none => some (setKey a (arg.drop 2) .vtrue)
  else
    addPositional a arg

/-- Model of `parseArgs` (render-cli.js lines 21-41) applied to
`process.argv.slice(2)`.  `none` models an uncaught exception. -/
def parseArgs (argv : List JStr) : Option Args :=
  argv.foldlM parseArg1 []

/-- Model of `args[0]`-style element access `v[0]` used in
`args._positional[0]`; `none` models `undefined`. -/
def elem0 : JsVal → Option JsVal
  | .varr (x :: _) => some (.vstr x)
  | .varr [] => none
  | .vstr (c :: _) => some (.vstr [c])
  | .vstr [] => none
  | .vtrue => none

/-- Model of `args.input || (args._positional && args._positional[0])`
(render-cli.js line 55). -/
def chooseInput (a : Args) : Option JsVal :=
  let iv := getProp a (str "input")
  if jsTruthyO iv then iv
  else
    let pv := getProp a posKey
    if jsTruthyO pv then
      match pv with
      | some v => elem0 v
      | none => none
    else pv

/-- Index of the last occurrence of `c` in `l`. -/
def lastIdxOf (c : Char) (l : JStr) : Option Nat :=
  match l with
  | [] => none
  | x :: xs =>
    match lastIdxOf c xs with
    | some i => some (i + 1)
    | none => if x = c then some 0 else none

/-- Model of POSIX `path.dirname` for paths without trailing slashes
(the only shapes the program produces). -/
def pathDirname (p : JStr) : JStr :=
  match lastIdxOf '/' p with
  | none => str "."
  | some 0 => str "/"
  | some i => p.take i

/-- Model of POSIX `path.basename(p, ext)`: the final path segment, with the
suffix `ext` removed when the segment ends in it and is not equal to it. -/
def pathBasename (p ext : JStr) : JStr :=
  let base : JStr :=
    match lastIdxOf '/' p with
    | none => p
    | some i => p.drop (i + 1)
  if base ≠ ext ∧ ext.isSuffixOf base then base.take (base.length - ext.length) else base

/-- Model of POSIX `path.join` for two already-normalized segments. -/
def pathJoin (a b : JStr) : JStr :=
  if a = [] then b
  else if a = str "." then b
  else if a.getLast? = some '/' then a ++ b
  else a ++ '/' :: b

/-- Model of POSIX `path.resolve` against a normalized working directory. -/
def pathResolve (cwd p : JStr) : JStr :=
  match p with
  | [] => cwd
  | c :: rest => if c = '/' then c :: rest else pathJoin cwd (c :: rest)

/-- The character map of `replace(/[:.]/g, \x27-\x27)`. -/
def replColonDot (c : Char) : Char := if c = ':' ∨ c = '.' then '-' else c

/-- Model of `generateOutputPath` (render-cli.js lines 44-49); the current
ISO time string `new Date().toISOString()` is passed in as `iso`. -/
def generateOutputPath (inputPath iso : JStr) : JStr :=
  let dir := pathDirname inputPath
  let baseName := pathBasename inputPath (str ".tsx")
  let timestamp := (iso.map replColonDot).take 19
  pathJoin dir (baseName ++ str "_" ++ timestamp ++ str ".mp4")

/-- Multiplication of JavaScript numbers (modelled as rationals), written as
an executable normalization so that concrete runs evaluate inside the kernel;
`qMul_eq_mul` identifies it with rational multiplication. -/
def qMul (a b : ℚ) : ℚ := mkRat (a.num * b.num) (a.den * b.den)

/-- Model of JavaScript `Math.round`: round half toward positive infinity,
written executably; `jsRound_eq_floor` identifies it with
`fun q => ⌊q + 1 / 2⌋`. -/
def jsRound (q : ℚ) : ℤ := Rat.floor (mkRat (2 * q.num + q.den) (2 * q.den))

theorem qMul_eq_mul (a b : ℚ) : qMul a b = a * b := by
  rw [qMul, Rat.mkRat_eq_div]
  push_cast
  conv_rhs => rw [← Rat.num_div_den a, ← Rat.num_div_den b]
  rw [div_mul_div_comm]

theorem jsRound_eq_floor (q : ℚ) : jsRound q = ⌊q + 1 / 2⌋ := by
  have hfl : (Rat.floor (mkRat (2 * q.num + q.den) (2 * q.den)) : ℤ) =
      ⌊(mkRat (2 * q.num + q.den) (2 * q.den) : ℚ)⌋ := rfl
  rw [jsRound, hfl, Rat.mkRat_eq_div]
  congr 1
  have hden : ((q.den : ℚ)) ≠ 0 := by
    exact_mod_cast Rat.den_ne_zero q
  push_cast
  rw [eq_comm, eq_div_iff (by positivity)]
  have hq : q = q.num / q.den := (Rat.num_div_den q).symm
  nth_rewrite 1 [hq]
  field_simp
  ring

/-- The Composition Descriptor returned by `extractCompositionConfig`:
the five required fields of the exported `compositionConfig` object. -/
structure Config where
  id : JStr
  durationInSeconds : ℚ
  fps : ℚ
  width : ℚ
  height : ℚ
deriving DecidableEq, Repr

/-- The composition record returned by the `selectComposition` collaborator. -/
structure Composition where
  id : JStr
  durationInFrames : ℤ
  fps : ℚ
  width : ℚ
  height : ℚ
deriving DecidableEq, Repr

/-- The argument record passed to the `renderMedia` collaborator
(render-cli.js lines 182-196): the selected composition spread together with
the overridden duration, fps and dimensions. -/
structure RenderArgs where
  compId : JStr
  durationInFrames : ℤ
  fps : ℚ
  width : ℚ
  height : ℚ
  serveUrl : JStr
  codec : JStr
  outputLocation : JStr
deriving DecidableEq, Repr

/-- The `resolve` (or `resolveLoader`) section of a webpack configuration:
only the `modules` search-path list is relevant to the override. -/
structure ResolveSection where
  modules : Option (List JStr)
deriving DecidableEq, Repr

/-- A webpack configuration as seen by the `webpackOverride` callback. -/
structure WebpackConfig where
  resolve : Option ResolveSection
  resolveLoader : Option ResolveSection
deriving DecidableEq, Repr

/-- Model of the `webpackOverride` callback passed to `bundle`
(render-cli.js lines 143-160).  Note that in JS an empty array is truthy, so
`webpackConfig.resolve.modules || [\x27node_modules\x27]` keeps a present
empty list and substitutes the default only when `modules` is absent. -/
def webpackOverride (rendererNodeModules : JStr) (cfg : WebpackConfig) : WebpackConfig :=
  let rmods := (cfg.resolve.bind ResolveSection.modules).getD [str "node_modules"]
  let lmods := (cfg.resolveLoader.bind ResolveSection.modules).getD [str "node_modules"]
  { resolve := some ⟨some (rendererNodeModules :: rmods)⟩
    resolveLoader := some ⟨some (rendererNodeModules :: lmods)⟩ }

/-- Substring test, modelling `String.prototype.includes`. -/
def sContains (s sub : JStr) : Bool :=
  match s with
  | [] => sub.isPrefixOf []
  | c :: rest => sub.isPrefixOf (c :: rest) || sContains rest sub

/-- The literal part of the regex `/Cant resolve \x27([^\x27]+)\x27/` up to and
including the opening quote (the pattern text contains an apostrophe after
the `n` of `Can`). -/
def cantResolvePat : JStr := str "Can" ++ [apos] ++ str "t resolve " ++ [apos]

/-- Try to match the regex `Can\x27t resolve \x27([^\x27]+)\x27` at the head of
`msg`: the literal prefix, then one or more non-quote characters, then a
closing quote.  Returns the captured group. -/
def matchCantResolveAt (msg : JStr) : Option JStr :=
  if cantResolvePat.isPrefixOf msg then
    let rest := msg.drop cantResolvePat.length
    let name := rest.takeWhile (fun c => c ≠ apos)
    if name ≠ [] ∧ (rest.drop name.length).head? = some apos then some name else none
  else none

/-- Leftmost match of `err.message.match(/Can\x27t resolve \x27([^\x27]+)\x27/)`
(render-cli.js line 214): scan positions left to right. -/
def extractModuleName : JStr → Option JStr
  | [] => none
  | c :: cs =>
    match matchCantResolveAt (c :: cs) with
    | some n => some n
    | none => extractModuleName cs

/-- Observable events of one run: collaborator invocations, user-facing
messages, and progress reports (rounded percent values). -/
inductive Event
  | validateCall (p : JStr)
  | logOutputPath (p : JStr)
  | extractCall (p : JStr)
  | errorMsg (m : JStr)
  | usagePrinted
  | configHintPrinted
  | browserCall
  | browserProgress (n : ℤ)
  | createTempCall (p : JStr) (cfg : Config)
  | bundleCall (entry : JStr)
  | bundleProgress (n : ℤ)
  | selectCall (url : JStr) (id : JStr)
  | renderCall (ra : RenderArgs)
  | renderProgress (n : ℤ)
  | renderComplete
  | cleanupCall (dir : JStr)
  | hintConfigFormat
  | hintModuleMissing (m : JStr)
  | hintGenericDep
  | hintEnoent
  | stackPrinted
  | crashed
deriving DecidableEq, Repr

/-- The oracle environment of one run: the working directory, the clock, and
the outcome each collaborator call returns (errors carry `err.message`).
Progress-callback lists hold the fractional values the collaborators deliver. -/
structure Env where
  cwd : JStr
  isoNow : JStr
  validateRes : Except JStr Unit
  extractRes : Except JStr Config
  browserRes : Except JStr Unit
  browserProgressCbs : List ℚ
  createTempRes : Except JStr JStr
  bundleProgressCbs : List ℚ
  bundleRes : Except JStr JStr
  selectRes : Except JStr Composition
  renderProgressCbs : List ℚ
  renderRes : Except JStr Unit

/-- Result of a run of `main`: the events in order, and the exit code. -/
structure MainResult where
  events : List Event
  exitCode : ℤ
deriving DecidableEq, Repr

/-- Outcome of the `try` block (render-cli.js lines 111-205): terminated by
`process.exit` inside the block, or left by a thrown error (carrying the
value of `tempProjectDir` at throw time), or — hypothetically — completed
without exiting, which is the only way the `finally` clause could run. -/
inductive TryOutcome
  | exited (evs : List Event) (code : ℤ)
  | thrown (evs : List Event) (msg : JStr) (tempDir : Option JStr)
  | completed (evs : List Event) (tempDir : Option JStr)
deriving DecidableEq, Repr

/-- The events accumulated inside a `TryOutcome`. -/
def TryOutcome.evs : TryOutcome → List Event
  | .exited e _ => e
  | .thrown e _ _ => e
  | .completed e _ => e

/-- Progress events delivered by a collaborator: each fractional callback
value `p` is reported as `Math.round(p * 100)`. -/
def progressEvents (mk : ℤ → Event) (ps : List ℚ) : List Event :=
  ps.map (fun p => mk (jsRound (qMul p 100)))

/-- Model of the `try` block (render-cli.js lines 111-205): ensure browser,
create the temp project, bundle, select the composition, render, then
`process.exit(0)`. -/
def tryBlock (abs outputPath : JStr) (cfg : Config) (env : Env) : TryOutcome :=
  let evs0 := Event.browserCall :: progressEvents Event.browserProgress env.browserProgressCbs
  match env.browserRes with
  | .error m => .thrown evs0 m none
  | .ok _ =>
    let evs1 := evs0 ++ [Event.createTempCall abs cfg]
    match env.createTempRes with
    | .error m => .thrown evs1 m none
    | .ok tempProjectDir =>
      let entryPoint := pathJoin (pathJoin tempProjectDir (str "src")) (str "index.ts")
      let evs2 := evs1 ++ Event.bundleCall entryPoint ::
        progressEvents Event.bundleProgress env.bundleProgressCbs
      match env.bundleRes with
      | .error m => .thrown evs2 m (some tempProjectDir)
      | .ok bundleLocation =>
        let evs3 := evs2 ++ [Event.selectCall bundleLocation cfg.id]
        match env.selectRes with
        | .error m => .thrown evs3 m (some tempProjectDir)
        | .ok composition =>
          let durationInFrames := jsRound (qMul cfg.durationInSeconds cfg.fps)
          let ra : RenderArgs :=
            { compId := composition.id
              durationInFrames := durationInFrames
              fps := cfg.fps
              width := cfg.width
              height := cfg.height
              serveUrl := bundleLocation
              codec := str "h264"
              outputLocation := outputPath }
          let evs4 := evs3 ++ Event.renderCall ra ::
            progressEvents Event.renderProgress env.renderProgressCbs
          match env.renderRes with
          | .error m => .thrown evs4 m (some tempProjectDir)
          | .ok _ => .exited (evs4 ++ [Event.renderComplete]) 0

/-- The diagnostic hints of the `catch` block (render-cli.js lines 211-228):
pattern-match the error message into a category. -/
def diagnosticHints (msg : JStr) : List Event :=
  if sContains msg (str "compositionConfig") then [Event.hintConfigFormat]
  else if sContains msg (str "Module not found") then
    match extractModuleName msg with
    | some m => [Event.hintModuleMissing m]
    | none => [Event.hintGenericDep]
  else if sContains msg (str "ENOENT") then [Event.hintEnoent]
  else []

/-- Model of the `catch` and `finally` clauses (render-cli.js lines 206-242).
`process.exit` terminates the Node process at once, so on the `exited` and
`thrown` outcomes the `finally` clause — and with it `cleanupTempProject` —
never runs; it would run only on the impossible `completed` outcome. -/
def finishTry (pre : List Event) (verbose : Bool) : TryOutcome → MainResult
  | .exited evs code => ⟨pre ++ evs, code⟩
  | .thrown evs msg _ =>
    ⟨pre ++ evs ++ Event.errorMsg msg :: diagnosticHints msg ++
      (if verbose then [Event.stackPrinted] else []), 1⟩
  | .completed evs tempDir =>
    ⟨pre ++ evs ++ (match tempDir with | some d => [Event.cleanupCall d] | none => []), 0⟩

/-- Model of the output-path determination (render-cli.js lines 77-79):
`args.output ? path.resolve(args.output) : generateOutputPath(...)`.
`none` models the `TypeError` thrown by `path.resolve` on a non-string. -/
def resolveOutput (args : Args) (abs : JStr) (env : Env) : Option JStr :=
  match getProp args (str "output") with
  | some (.vstr o) =>
    if o = [] then some (generateOutputPath abs env.isoNow)
    else some (pathResolve env.cwd o)
  | some .vtrue => none
  | some (.varr _) => none
  | none => some (generateOutputPath abs env.isoNow)

/-- Model of `main` from input validation onward (render-cli.js lines 65-242),
given the chosen input path string `s`. -/
def mainPipeline (s : JStr) (args : Args) (env : Env) : MainResult :=
  let absoluteInputPath := pathResolve env.cwd s
  let ev0 := [Event.validateCall absoluteInputPath]
  match env.validateRes with
  | .error m => ⟨ev0 ++ [Event.errorMsg m], 1⟩
  | .ok _ =>
    match resolveOutput args absoluteInputPath env with
    | none => ⟨ev0 ++ [Event.crashed], 1⟩
    | some outputPath =>
      let ev1 := ev0 ++ [Event.logOutputPath outputPath, Event.extractCall absoluteInputPath]
      match env.extractRes with
      | .error m => ⟨ev1 ++ [Event.errorMsg m, Event.configHintPrinted], 1⟩
      | .ok config =>
        finishTry ev1 (jsTruthyO (getProp args (str "verbose")))
          (tryBlock absoluteInputPath outputPath config env)

/-- Model of `main` (render-cli.js lines 51-243).  A `crashed` result models
an uncaught `TypeError` (Node terminates such a process with exit code 1). -/
def main (argv : List JStr) (env : Env) : MainResult :=
  match parseArgs argv with
  | none => ⟨[Event.crashed], 1⟩
  | some args =>
    match chooseInput args with
    | none => ⟨[Event.usagePrinted], 1⟩
    | some v =>
      if truthy v then
        match v with
        | .vstr s => mainPipeline s args env
        | _ => ⟨[Event.crashed], 1⟩
      else ⟨[Event.usagePrinted], 1⟩

/-- A literal field value of the exported `compositionConfig` object, as the
static extractor sees it: a string literal, a numeric literal, or anything
else. -/
inductive RawVal
  | rstr (s : JStr)
  | rnum (q : ℚ)
  | rother
deriving DecidableEq, Repr

/-- The parsed `compositionConfig` object literal: field names to values. -/
abbrev RawConfig := List (JStr × RawVal)

/-- Field read on a parsed object literal. -/
def rawLookup (raw : RawConfig) (k : JStr) : Option RawVal :=
  match raw with
  | [] => none
  | (k2, v) :: rest => if k2 = k then some v else rawLookup rest k

/-- The error of the Config Extractor, naming the missing or invalid field. -/
structure ConfigExtractionError where
  field : JStr
deriving DecidableEq, Repr

/-- Modelled from the spec: `extractCompositionConfig` of
`lib/config-extractor`, which is not among the provided sources (only its
caller in render-cli.js is).  Per spec section 4.1, the extractor statically
reads the exported configuration record and requires the fields `id`
(string), `durationInSeconds`, `fps`, `width`, `height` (numbers); a missing
or wrong-typed field fails with a `ConfigExtractionError` naming that field,
and no field is ever defaulted. -/
def extractCompositionConfig (raw : RawConfig) : Except ConfigExtractionError Config :=
  match rawLookup raw (str "id") with
  | some (.rstr i) =>
    match rawLookup raw (str "durationInSeconds") with
    | some (.rnum d) =>
      match rawLookup raw (str "fps") with
      | some (.rnum f) =>
        match rawLookup raw (str "width") with
        | some (.rnum w) =>
          match rawLookup raw (str "height") with
          | some (.rnum h) => .ok ⟨i, d, f, w, h⟩
          | _ => .error ⟨str "height"⟩
        | _ => .error ⟨str "width"⟩
      | _ => .error ⟨str "fps"⟩
    | _ => .error ⟨str "durationInSeconds"⟩
  | _ => .error ⟨str "id"⟩

/-- From the spec (section 3), for comparison with the code: a valid
Composition Descriptor has a nonempty `id`, a positive real
`durationInSeconds`, a positive integer `fps`, and positive integer pixel
dimensions. -/
def validDescriptor (c : Config) : Bool :=
  c.id ≠ [] ∧ 0 < c.durationInSeconds ∧
    c.fps.den = 1 ∧ 0 < c.fps.num ∧
    c.width.den = 1 ∧ 0 < c.width.num ∧
    c.height.den = 1 ∧ 0 < c.height.num

/-- From the spec (section 6 and section 8), for comparison with the code:
the output-name timestamp is the UTC ISO time truncated to second precision
(19 characters) with every colon and period replaced by a hyphen. -/
def specTimestamp (iso : JStr) : JStr := (iso.take 19).map replColonDot

/-- Does an event record a `cleanupTempProject` call? -/
def isCleanupEvent : Event → Bool
  | .cleanupCall _ => true
  | _ => false

/-- Does an event record a `createTempProject` call? -/
def isCreateTempEvent : Event → Bool
  | .createTempCall _ _ => true
  | _ => false

/-- Select the `renderMedia` argument record of an event, when it is one. -/
def renderCallOf : Event → Option RenderArgs
  | .renderCall ra => some ra
  | _ => none

/-- Select the bundling-progress percent of an event, when it is one. -/
def bundleProgressOf : Event → Option ℤ
  | .bundleProgress n => some n
  | _ => none

/-- Select the rendering-progress percent of an event, when it is one. -/
def renderProgressOf : Event → Option ℤ
  | .renderProgress n => some n
  | _ => none

/-- Select the module name of a module-missing hint event, when it is one. -/
def moduleHintOf : Event → Option JStr
  | .hintModuleMissing m => some m
  | _ => none

/-- The `renderMedia` argument records of a run, in order. -/
def renderCallsOf (r : MainResult) : List RenderArgs := r.events.filterMap renderCallOf

/-- The rounded percent values reported during the bundling phase, in order. -/
def reportedBundle (r : MainResult) : List ℤ := r.events.filterMap bundleProgressOf

/-- The rounded percent values reported during the rendering phase, in order. -/
def reportedRender (r : MainResult) : List ℤ := r.events.filterMap renderProgressOf

/-- The module-missing hints of a run, in order. -/
def moduleHintsOf (r : MainResult) : List JStr := r.events.filterMap moduleHintOf

/-! ### Concrete fixtures

A sample run: the descriptor of the sample composition file
(`CybersecurityShield`, 12 seconds at 30 fps, 3840 by 2160), with every
collaborator succeeding. -/

/-- The descriptor extracted from the sample composition file. -/
def cfgShield : Config := ⟨str "CybersecurityShield", 12, 30, 3840, 2160⟩

/-- The composition the selection collaborator returns for the sample. -/
def compShield : Composition := ⟨str "CybersecurityShield", 360, 30, 3840, 2160⟩

/-- An environment in which every collaborator call succeeds. -/
def envOk : Env :=
  { cwd := str "/work"
    isoNow := str "2026-10-11T12:34:56.789Z"
    validateRes := .ok ()
    extractRes := .ok cfgShield
    browserRes := .ok ()
    browserProgressCbs := []
    createTempRes := .ok (str "/tmp/remotion-temp-1")
    bundleProgressCbs := []
    bundleRes := .ok (str "/tmp/remotion-temp-1/bundle")
    selectRes := .ok compShield
    renderProgressCbs := []
    renderRes := .ok () }

/-- The command line of the sample run: one positional input path. -/
def argvDemo : List JStr := [str "/work/demo.tsx"]

/-- The `renderMedia` argument record of the sample run. -/
def raShield : RenderArgs :=
  ⟨str "CybersecurityShield", 360, 30, 3840, 2160, str "/tmp/remotion-temp-1/bundle",
    str "h264", str "/work/demo_2026-10-11T12-34-56.mp4"⟩

/-! ### Helper lemmas -/

theorem tryBlock_ne_completed (abs out : JStr) (cfg : Config) (env : Env)
    (evs : List Event) (td : Option JStr) :
    tryBlock abs out cfg env ≠ .completed evs td := by
  unfold tryBlock
  cases env.browserRes <;> cases env.createTempRes <;> cases env.bundleRes <;>
    cases env.selectRes <;> cases env.renderRes <;> simp

theorem diagnosticHints_events (msg : JStr) (e : Event) (he : e ∈ diagnosticHints msg) :
    e = Event.hintConfigFormat ∨ (∃ m, e = Event.hintModuleMissing m) ∨
      e = Event.hintGenericDep ∨ e = Event.hintEnoent := by
  unfold diagnosticHints at he
  split at he
  · simp at he
    simp [he]
  · split at he
    · split at he <;> simp at he <;> simp [he]
    · split at he <;> simp at he <;> simp [he]

theorem mem_pre_finishTry (pre : List Event) (vb : Bool) (o : TryOutcome) (e : Event)
    (he : e ∈ pre) : e ∈ (finishTry pre vb o).events := by
  cases o <;> simp [finishTry, he]

theorem diagnosticHints_no_cleanup (msg : JStr) :
    (diagnosticHints msg).filter isCleanupEvent = [] := by
  rw [List.filter_eq_nil]
  intro e he
  rcases diagnosticHints_events msg e he with h | ⟨m, h⟩ | h | h <;> simp [h, isCleanupEvent]

theorem tryBlock_evs_no_cleanup (abs out : JStr) (cfg : Config) (env : Env) :
    (tryBlock abs out cfg env).evs.filter isCleanupEvent = [] := by
  unfold tryBlock
  cases env.browserRes <;> cases env.createTempRes <;> cases env.bundleRes <;>
    cases env.selectRes <;> cases env.renderRes <;>
    simp [TryOutcome.evs, List.filter_append, List.filter_eq_nil, progressEvents,
      isCleanupEvent]

theorem finishTry_tryBlock_no_cleanup (pre : List Event) (vb : Bool) (abs out : JStr)
    (cfg : Config) (env : Env) (hpre : pre.filter isCleanupEvent = []) :
    (finishTry pre vb (tryBlock abs out cfg env)).events.filter isCleanupEvent = [] := by
  have hevs := tryBlock_evs_no_cleanup abs out cfg env
  have hne := tryBlock_ne_completed abs out cfg env
  cases ho : tryBlock abs out cfg env with
  | exited evs code =>
    rw [ho] at hevs
    simp only [TryOutcome.evs] at hevs
    simp [finishTry, List.filter_append, hpre, hevs]
  | thrown evs msg td =>
    rw [ho] at hevs
    simp only [TryOutcome.evs] at hevs
    cases vb <;>
      simp [finishTry, List.filter_append, hpre, hevs, diagnosticHints_no_cleanup,
        isCleanupEvent]
  | completed evs td => exact absurd ho (hne evs td)

theorem main_no_cleanup (argv : List JStr) (env : Env) :
    (main argv env).events.filter isCleanupEvent = [] := by
  unfold main
  cases parseArgs argv with
  | none => simp [isCleanupEvent]
  | some args =>
    dsimp only
    cases chooseInput args with
    | none => simp [isCleanupEvent]
    | some v =>
      dsimp only
      cases v with
      | vstr s =>
        dsimp only [truthy]
        cases hs : decide (s ≠ []) with
        | false => simp [isCleanupEvent]
        | true =>
          rw [if_pos rfl]
          unfold mainPipeline
          cases env.validateRes with
          | error m => simp [isCleanupEvent]
          | ok u =>
            dsimp only
            cases resolveOutput args (pathResolve env.cwd s) env with
            | none => simp [isCleanupEvent]
            | some outputPath =>
              dsimp only
              cases env.extractRes with
              | error m => simp [isCleanupEvent]
              | ok config =>
                exact finishTry_tryBlock_no_cleanup _ _ _ _ _ _ (by simp [isCleanupEvent])
      | vtrue => simp [truthy, isCleanupEvent]
      | varr xs => simp [truthy, isCleanupEvent]

theorem mem_finishTry_events (pre : List Event) (vb : Bool) (o : TryOutcome) (e : Event)
    (he : e ∈ (finishTry pre vb o).events) :
    e ∈ pre ∨ e ∈ o.evs ∨ (∃ m, e = Event.errorMsg m) ∨
      e = Event.hintConfigFormat ∨ (∃ m, e = Event.hintModuleMissing m) ∨
      e = Event.hintGenericDep ∨ e = Event.hintEnoent ∨ e = Event.stackPrinted ∨
      (∃ d, e = Event.cleanupCall d) := by
  cases o with
  | exited evs code =>
    simp only [finishTry, TryOutcome.evs, List.mem_append] at he ⊢
    tauto
  | thrown evs msg td =>
    cases vb <;>
      simp only [finishTry, TryOutcome.evs, List.mem_append, List.mem_cons,
        Bool.false_eq_true, if_false, if_true, List.mem_singleton, List.not_mem_nil,
        or_false] at he
    · rcases he with (h | h) | h | h
      · exact Or.inl h
      · exact Or.inr (Or.inl h)
      · exact Or.inr (Or.inr (Or.inl ⟨msg, h⟩))
      · rcases diagnosticHints_events msg e h with h1 | h1 | h1 | h1 <;> tauto
    · rcases he with ((h | h) | h | h) | h
      · exact Or.inl h
      · exact Or.inr (Or.inl h)
      · exact Or.inr (Or.inr (Or.inl ⟨msg, h⟩))
      · rcases diagnosticHints_events msg e h with h1 | h1 | h1 | h1 <;> tauto
      · tauto
  | completed evs td =>
    simp only [finishTry, TryOutcome.evs, List.mem_append] at he
    rcases he with (h | h) | h
    · exact Or.inl h
    · exact Or.inr (Or.inl h)
    · cases td <;> simp at h
      tauto

theorem tryBlock_renderCall (abs out : JStr) (cfg : Config) (env : Env) (ra : RenderArgs)
    (hra : Event.renderCall ra ∈ (tryBlock abs out cfg env).evs) :
    ra.durationInFrames = jsRound (qMul cfg.durationInSeconds cfg.fps) ∧
    ra.fps = cfg.fps ∧ ra.width = cfg.width ∧ ra.height = cfg.height ∧
    ra.outputLocation = out := by
  unfold tryBlock at hra
  cases hb : env.browserRes with
  | error m => rw [hb] at hra; simp [TryOutcome.evs, progressEvents] at hra
  | ok u1 =>
    rw [hb] at hra; dsimp only at hra
    cases hc : env.createTempRes with
    | error m => rw [hc] at hra; simp [TryOutcome.evs, progressEvents] at hra
    | ok tempProjectDir =>
      rw [hc] at hra; dsimp only at hra
      cases hbu : env.bundleRes with
      | error m => rw [hbu] at hra; simp [TryOutcome.evs, progressEvents] at hra
      | ok bundleLocation =>
        rw [hbu] at hra; dsimp only at hra
        cases hse : env.selectRes with
        | error m => rw [hse] at hra; simp [TryOutcome.evs, progressEvents] at hra
        | ok composition =>
          rw [hse] at hra; dsimp only at hra
          cases hre : env.renderRes with
          | error m =>
            rw [hre] at hra
            simp [TryOutcome.evs, progressEvents] at hra
            simp [hra]
          | ok u2 =>
            rw [hre] at hra
            simp [TryOutcome.evs, progressEvents] at hra
            simp [hra]

theorem main_renderCall (argv : List JStr) (env : Env) (cfg : Config) (ra : RenderArgs)
    (hex : env.extractRes = .ok cfg)
    (hra : Event.renderCall ra ∈ (main argv env).events) :
    ra.durationInFrames = jsRound (qMul cfg.durationInSeconds cfg.fps) ∧
    ra.fps = cfg.fps ∧ ra.width = cfg.width ∧ ra.height = cfg.height := by
  unfold main at hra
  cases hp : parseArgs argv with
  | none => rw [hp] at hra; simp at hra
  | some args =>
    rw [hp] at hra; dsimp only at hra
    cases hch : chooseInput args with
    | none => rw [hch] at hra; simp at hra
    | some v =>
      rw [hch] at hra; dsimp only at hra
      cases v with
      | vstr s =>
        dsimp only [truthy] at hra
        cases hs : decide (s ≠ []) with
        | false => rw [hs] at hra; simp at hra
        | true =>
          rw [hs, if_pos rfl] at hra
          unfold mainPipeline at hra
          cases hv : env.validateRes with
          | error m => rw [hv] at hra; simp at hra
          | ok u =>
            rw [hv] at hra; dsimp only at hra
            cases hro : resolveOutput args (pathResolve env.cwd s) env with
            | none => rw [hro] at hra; simp at hra
            | some outputPath =>
              rw [hro] at hra; dsimp only at hra
              rw [hex] at hra
              dsimp only at hra
              rcases mem_finishTry_events _ _ _ _ hra with
                h | h | ⟨m, h⟩ | h | ⟨m, h⟩ | h | h | h | ⟨d, h⟩
              · simp at h
              · have := tryBlock_renderCall _ _ _ _ _ h
                exact ⟨this.1, this.2.1, this.2.2.1, this.2.2.2.1⟩
              all_goals simp at h
      | vtrue => simp [truthy] at hra
      | varr xs => simp [truthy] at hra

theorem jsRound_mono {a b : ℚ} (h : a ≤ b) : jsRound a ≤ jsRound b := by
  rw [jsRound_eq_floor, jsRound_eq_floor]
  exact Int.floor_le_floor (by linarith)

theorem jsRound_percent_bounds {p : ℚ} (h0 : 0 ≤ p) (h1 : p ≤ 1) :
    0 ≤ jsRound (qMul p 100) ∧ jsRound (qMul p 100) ≤ 100 := by
  rw [jsRound_eq_floor, qMul_eq_mul]
  constructor
  · exact Int.le_floor.mpr (by push_cast; linarith)
  · have hlt : (p * 100 + 1 / 2 : ℚ) < 101 := by linarith
    have h2 : ⌊(p * 100 + 1 / 2 : ℚ)⌋ < 101 := Int.floor_lt.mpr (by exact_mod_cast hlt)
    omega

theorem diagnosticHints_filterMap_bundle (msg : JStr) :
    (diagnosticHints msg).filterMap bundleProgressOf = [] := by
  rw [List.filterMap_eq_nil]
  intro e he
  rcases diagnosticHints_events msg e he with h | ⟨m, h⟩ | h | h <;> simp [h, bundleProgressOf]

theorem diagnosticHints_filterMap_render (msg : JStr) :
    (diagnosticHints msg).filterMap renderProgressOf = [] := by
  rw [List.filterMap_eq_nil]
  intro e he
  rcases diagnosticHints_events msg e he with h | ⟨m, h⟩ | h | h <;> simp [h, renderProgressOf]

theorem filterMap_progress_none {α : Type} (sel : Event → Option α) (mk : ℤ → Event)
    (h : ∀ n, sel (mk n) = none) (l : List ℚ) :
    List.filterMap (sel ∘ fun p => mk (jsRound (qMul p 100))) l = [] := by
  induction l with
  | nil => rfl
  | cons a t ih => simp [List.filterMap_cons, Function.comp, h, ih]

theorem filterMap_progress_some (sel : Event → Option ℤ) (mk : ℤ → Event)
    (h : ∀ n, sel (mk n) = some n) (l : List ℚ) :
    List.filterMap (sel ∘ fun p => mk (jsRound (qMul p 100))) l =
      l.map (fun p => jsRound (qMul p 100)) := by
  induction l with
  | nil => rfl
  | cons a t ih => simp [List.filterMap_cons, Function.comp, h, ih]

@[simp] theorem filterMap_bundle_browser (l : List ℚ) :
    List.filterMap (bundleProgressOf ∘ fun p => Event.browserProgress (jsRound (qMul p 100))) l
      = [] := filterMap_progress_none _ _ (fun n => rfl) l

@[simp] theorem filterMap_bundle_render (l : List ℚ) :
    List.filterMap (bundleProgressOf ∘ fun p => Event.renderProgress (jsRound (qMul p 100))) l
      = [] := filterMap_progress_none _ _ (fun n => rfl) l

@[simp] theorem filterMap_bundle_bundle (l : List ℚ) :
    List.filterMap (bundleProgressOf ∘ fun p => Event.bundleProgress (jsRound (qMul p 100))) l
      = l.map (fun p => jsRound (qMul p 100)) := filterMap_progress_some _ _ (fun n => rfl) l

@[simp] theorem filterMap_render_browser (l : List ℚ) :
    List.filterMap (renderProgressOf ∘ fun p => Event.browserProgress (jsRound (qMul p 100))) l
      = [] := filterMap_progress_none _ _ (fun n => rfl) l

@[simp] theorem filterMap_render_bundle (l : List ℚ) :
    List.filterMap (renderProgressOf ∘ fun p => Event.bundleProgress (jsRound (qMul p 100))) l
      = [] := filterMap_progress_none _ _ (fun n => rfl) l

@[simp] theorem filterMap_render_render (l : List ℚ) :
    List.filterMap (renderProgressOf ∘ fun p => Event.renderProgress (jsRound (qMul p 100))) l
      = l.map (fun p => jsRound (qMul p 100)) := filterMap_progress_some _ _ (fun n => rfl) l

theorem main_reportedBundle (argv : List JStr) (env : Env) :
    reportedBundle (main argv env) = [] ∨
      reportedBundle (main argv env) =
        env.bundleProgressCbs.map (fun p => jsRound (qMul p 100)) := by
  unfold main
  cases parseArgs argv with
  | none => left; simp [reportedBundle, bundleProgressOf]
  | some args =>
    dsimp only
    cases chooseInput args with
    | none => left; simp [reportedBundle, bundleProgressOf]
    | some v =>
      dsimp only
      cases v with
      | vstr s =>
        dsimp only [truthy]
        cases hs : decide (s ≠ []) with
        | false => left; simp [reportedBundle, bundleProgressOf]
        | true =>
          rw [if_pos rfl]
          unfold mainPipeline
          cases env.validateRes with
          | error m => left; simp [reportedBundle, bundleProgressOf]
          | ok u =>
            dsimp only
            cases resolveOutput args (pathResolve env.cwd s) env with
            | none => left; simp [reportedBundle, bundleProgressOf]
            | some outputPath =>
              dsimp only
              cases env.extractRes with
              | error m => left; simp [reportedBundle, bundleProgressOf]
              | ok config =>
                dsimp only
                unfold tryBlock
                cases env.browserRes with
                | error m =>
                  left
                  cases vb : jsTruthyO (getProp args (str "verbose")) <;>
                    simp [finishTry, reportedBundle, List.filterMap_append,
                      List.filterMap_map, progressEvents, Function.comp,
                      bundleProgressOf, diagnosticHints_filterMap_bundle]
                | ok u1 =>
                  dsimp only
                  cases env.createTempRes with
                  | error m =>
                    left
                    cases vb : jsTruthyO (getProp args (str "verbose")) <;>
                      simp [finishTry, reportedBundle, List.filterMap_append,
                        List.filterMap_map, progressEvents, Function.comp,
                        bundleProgressOf, diagnosticHints_filterMap_bundle]
                  | ok tempProjectDir =>
                    dsimp only
                    cases env.bundleRes with
                    | error m =>
                      right
                      cases vb : jsTruthyO (getProp args (str "verbose")) <;>
                        simp [finishTry, reportedBundle, List.filterMap_append,
                          List.filterMap_map, progressEvents, Function.comp,
                          bundleProgressOf, diagnosticHints_filterMap_bundle]
                    | ok bundleLocation =>
                      dsimp only
                      cases env.selectRes with
                      | error m =>
                        right
                        cases vb : jsTruthyO (getProp args (str "verbose")) <;>
                          simp [finishTry, reportedBundle, List.filterMap_append,
                            List.filterMap_map, progressEvents, Function.comp,
                            bundleProgressOf, diagnosticHints_filterMap_bundle]
                      | ok composition =>
                        dsimp only
                        cases env.renderRes with
                        | error m =>
                          right
                          cases vb : jsTruthyO (getProp args (str "verbose")) <;>
                            simp [finishTry, reportedBundle, List.filterMap_append,
                              List.filterMap_map, progressEvents, Function.comp,
                              bundleProgressOf, diagnosticHints_filterMap_bundle]
                        | ok u2 =>
                          right
                          simp [finishTry, reportedBundle, List.filterMap_append,
                            List.filterMap_map, progressEvents, Function.comp,
                            bundleProgressOf]
      | vtrue => left; simp [truthy, reportedBundle, bundleProgressOf]
      | varr xs => left; simp [truthy, reportedBundle, bundleProgressOf]

theorem main_reportedRender (argv : List JStr) (env : Env) :
    reportedRender (main argv env) = [] ∨
      reportedRender (main argv env) =
        env.renderProgressCbs.map (fun p => jsRound (qMul p 100)) := by
  unfold main
  cases parseArgs argv with
  | none => left; simp [reportedRender, renderProgressOf]
  | some args =>
    dsimp only
    cases chooseInput args with
    | none => left; simp [reportedRender, renderProgressOf]
    | some v =>
      dsimp only
      cases v with
      | vstr s =>
        dsimp only [truthy]
        cases hs : decide (s ≠ []) with
        | false => left; simp [reportedRender, renderProgressOf]
        | true =>
          rw [if_pos rfl]
          unfold mainPipeline
          cases env.validateRes with
          | error m => left; simp [reportedRender, renderProgressOf]
          | ok u =>
            dsimp only
            cases resolveOutput args (pathResolve env.cwd s) env with
            | none => left; simp [reportedRender, renderProgressOf]
            | some outputPath =>
              dsimp only
              cases env.extractRes with
              | error m => left; simp [reportedRender, renderProgressOf]
              | ok config =>
                dsimp only
                unfold tryBlock
                cases env.browserRes with
                | error m =>
                  left
                  cases vb : jsTruthyO (getProp args (str "verbose")) <;>
                    simp [finishTry, reportedRender, List.filterMap_append,
                      List.filterMap_map, progressEvents, Function.comp,
                      renderProgressOf, diagnosticHints_filterMap_render]
                | ok u1 =>
                  dsimp only
                  cases env.createTempRes with
                  | error m =>
                    left
                    cases vb : jsTruthyO (getProp args (str "verbose")) <;>
                      simp [finishTry, reportedRender, List.filterMap_append,
                        List.filterMap_map, progressEvents, Function.comp,
                        renderProgressOf, diagnosticHints_filterMap_render]
                  | ok tempProjectDir =>
                    dsimp only
                    cases env.bundleRes with
                    | error m =>
                      left
                      cases vb : jsTruthyO (getProp args (str "verbose")) <;>
                        simp [finishTry, reportedRender, List.filterMap_append,
                          List.filterMap_map, progressEvents, Function.comp,
                          renderProgressOf, diagnosticHints_filterMap_render]
                    | ok bundleLocation =>
                      dsimp only
                      cases env.selectRes with
                      | error m =>
                        left
                        cases vb : jsTruthyO (getProp args (str "verbose")) <;>
                          simp [finishTry, reportedRender, List.filterMap_append,
                            List.filterMap_map, progressEvents, Function.comp,
                            renderProgressOf, diagnosticHints_filterMap_render]
                      | ok composition =>
                        dsimp only
                        cases env.renderRes with
                        | error m =>
                          right
                          cases vb : jsTruthyO (getProp args (str "verbose")) <;>
                            simp [finishTry, reportedRender, List.filterMap_append,
                              List.filterMap_map, progressEvents, Function.comp,
                              renderProgressOf, diagnosticHints_filterMap_render]
                        | ok u2 =>
                          right
                          simp [finishTry, reportedRender, List.filterMap_append,
                            List.filterMap_map, progressEvents, Function.comp,
                            renderProgressOf]
      | vtrue => left; simp [truthy, reportedRender, renderProgressOf]
      | varr xs => left; simp [truthy, reportedRender, renderProgressOf]

@[simp] theorem renderComplete_not_mem_hints (msg : JStr) :
    Event.renderComplete ∉ diagnosticHints msg := by
  intro he
  rcases diagnosticHints_events msg Event.renderComplete he with h | ⟨m, h⟩ | h | h <;>
    simp at h

theorem main_exit_iff (argv : List JStr) (env : Env) :
    (main argv env).exitCode = 0 ↔ Event.renderComplete ∈ (main argv env).events := by
  unfold main
  cases parseArgs argv with
  | none => simp
  | some args =>
    dsimp only
    cases chooseInput args with
    | none => simp
    | some v =>
      dsimp only
      cases v with
      | vstr s =>
        dsimp only [truthy]
        cases hs : decide (s ≠ []) with
        | false => simp
        | true =>
          rw [if_pos rfl]
          unfold mainPipeline
          cases env.validateRes with
          | error m => simp
          | ok u =>
            dsimp only
            cases resolveOutput args (pathResolve env.cwd s) env with
            | none => simp
            | some outputPath =>
              dsimp only
              cases env.extractRes with
              | error m => simp
              | ok config =>
                dsimp only
                unfold tryBlock
                cases env.browserRes with
                | error m =>
                  cases vb : jsTruthyO (getProp args (str "verbose")) <;>
                    simp [finishTry, progressEvents]
                | ok u1 =>
                  dsimp only
                  cases env.createTempRes with
                  | error m =>
                    cases vb : jsTruthyO (getProp args (str "verbose")) <;>
                      simp [finishTry, progressEvents]
                  | ok tempProjectDir =>
                    dsimp only
                    cases env.bundleRes with
                    | error m =>
                      cases vb : jsTruthyO (getProp args (str "verbose")) <;>
                        simp [finishTry, progressEvents]
                    | ok bundleLocation =>
                      dsimp only
                      cases env.selectRes with
                      | error m =>
                        cases vb : jsTruthyO (getProp args (str "verbose")) <;>
                          simp [finishTry, progressEvents]
                      | ok composition =>
                        dsimp only
                        cases env.renderRes with
                        | error m =>
                          cases vb : jsTruthyO (getProp args (str "verbose")) <;>
                            simp [finishTry, progressEvents]
                        | ok u2 => simp [finishTry, progressEvents]
      | vtrue => simp [truthy]
      | varr xs => simp [truthy]

/-! ### Claims -/

/-- C1: the cleanup invariant fails on the code.  `process.exit(0)` (line 205)
and `process.exit(1)` (line 236) terminate the Node process inside the `try`
and `catch` blocks, so the `finally` clause holding `cleanupTempProject`
(lines 237-242) never executes.  Witnessed here: in the sample run the
staging directory is acquired (`createTempProject` is called) and the process
reports success (exit code 0), yet no run of the program — on any input and
any collaborator outcome — ever performs a cleanup call. -/
theorem cleanupTempProject_never_runs :
    (main argvDemo envOk).events.filter isCreateTempEvent =
      [Event.createTempCall (str "/work/demo.tsx") cfgShield] ∧
    (main argvDemo envOk).exitCode = 0 ∧
    ∀ argv env, (main argv env).events.filter isCleanupEvent = [] :=
  ⟨by decide, by decide, main_no_cleanup⟩

/-- A valid descriptor (per the data model of spec section 3) whose duration
is so short that `Math.round(durationInSeconds * fps)` is zero. -/
def cfgTiny : Config := ⟨str "X", mkRat 1 64, 30, 1080, 1920⟩

/-- An all-collaborators-succeed environment whose extraction yields
`cfgTiny`. -/
def envTiny : Env :=
  { envOk with extractRes := .ok cfgTiny, selectRes := .ok ⟨str "X", 1, 30, 1080, 1920⟩ }

/-- C2 counterexample: the descriptor `cfgTiny` (id `X`, duration 1/64 s,
fps 30, 1080 by 1920) is valid per the data model, yet the run passes frame
count `round(1/64 * 30) = 0` — not at least 1 — to the render collaborator. -/
theorem durationInFrames_not_min_one :
    validDescriptor cfgTiny = true ∧
    (renderCallsOf (main argvDemo envTiny)).map RenderArgs.durationInFrames = [0] ∧
    jsRound (qMul cfgTiny.durationInSeconds cfgTiny.fps) = 0 := by
  refine ⟨by decide, by decide, by decide⟩

/-- C2 (amended): for every run whose extraction yields descriptor `cfg`,
every `renderMedia` invocation carries frame count
`round(durationInSeconds * fps)` and exactly the descriptor fps, width and
height; the frame count is at least 1 whenever
`durationInSeconds * fps ≥ 1/2` (the claim asserted it unconditionally, but
a valid descriptor with `durationInSeconds * fps < 1/2` rounds to 0); and
for the scenario duration 5 s at 30 fps the frame count is 150. -/
theorem renderMedia_invocation_parameters (argv : List JStr) (env : Env) (cfg : Config)
    (ra : RenderArgs) (hex : env.extractRes = .ok cfg)
    (hra : Event.renderCall ra ∈ (main argv env).events) :
    ra.durationInFrames = jsRound (qMul cfg.durationInSeconds cfg.fps) ∧
    ra.fps = cfg.fps ∧ ra.width = cfg.width ∧ ra.height = cfg.height ∧
    (1 / 2 ≤ cfg.durationInSeconds * cfg.fps → 1 ≤ ra.durationInFrames) ∧
    (cfg.durationInSeconds = 5 ∧ cfg.fps = 30 → ra.durationInFrames = 150) := by
  obtain ⟨h1, h2, h3, h4⟩ := main_renderCall argv env cfg ra hex hra
  refine ⟨h1, h2, h3, h4, ?_, ?_⟩
  · intro hge
    rw [h1, jsRound_eq_floor, qMul_eq_mul]
    have : (1 : ℚ) ≤ cfg.durationInSeconds * cfg.fps + 1 / 2 := by linarith
    exact_mod_cast Int.le_floor.mpr (by exact_mod_cast this)
  · rintro ⟨hd, hf⟩
    rw [h1, hd, hf, jsRound_eq_floor, qMul_eq_mul]
    norm_num

/-- Witness for the amended C2 theorem: the sample run, in which the
descriptor is 12 s at 30 fps and the render collaborator receives frame
count 360 with fps 30, width 3840, height 2160. -/
theorem renderMedia_invocation_parameters_witness :
    raShield.durationInFrames = jsRound (qMul cfgShield.durationInSeconds cfgShield.fps) ∧
    raShield.fps = cfgShield.fps ∧ raShield.width = cfgShield.width ∧
    raShield.height = cfgShield.height ∧
    (1 / 2 ≤ cfgShield.durationInSeconds * cfgShield.fps → 1 ≤ raShield.durationInFrames) ∧
    (cfgShield.durationInSeconds = 5 ∧ cfgShield.fps = 30 →
      raShield.durationInFrames = 150) :=
  renderMedia_invocation_parameters argvDemo envOk cfgShield raShield rfl (by decide)

theorem main_extract_error (argv : List JStr) (env : Env) (m : JStr)
    (hex : env.extractRes = .error m) :
    (main argv env).exitCode = 1 ∧
    (main argv env).events.filter isCreateTempEvent = [] := by
  unfold main
  cases parseArgs argv with
  | none => simp [isCreateTempEvent]
  | some args =>
    dsimp only
    cases chooseInput args with
    | none => simp [isCreateTempEvent]
    | some v =>
      dsimp only
      cases v with
      | vstr s =>
        dsimp only [truthy]
        cases hs : decide (s ≠ []) with
        | false => simp [isCreateTempEvent]
        | true =>
          rw [if_pos rfl]
          unfold mainPipeline
          cases env.validateRes with
          | error m2 => simp [isCreateTempEvent]
          | ok u =>
            dsimp only
            cases resolveOutput args (pathResolve env.cwd s) env with
            | none => simp [isCreateTempEvent]
            | some outputPath =>
              dsimp only
              rw [hex]
              simp [isCreateTempEvent]
      | vtrue => simp [truthy, isCreateTempEvent]
      | varr xs => simp [truthy, isCreateTempEvent]

/-- C3: the Config Extractor (modelled from the spec, its source not being
provided) fails with a `ConfigExtractionError` naming the missing field when
any one of `id`, `durationInSeconds`, `fps`, `width`, `height` is absent; and
in the orchestrator, a run whose extraction fails exits with code 1 having
never called `createTempProject` (extraction at lines 88-107 precedes the
staging call at line 131, and its catch block exits the process). -/
theorem extraction_failure_names_field_no_staging :
    (∀ raw, rawLookup raw (str "id") = none →
      extractCompositionConfig raw = .error ⟨str "id"⟩) ∧
    (∀ raw, (∃ i, rawLookup raw (str "id") = some (.rstr i)) →
      rawLookup raw (str "durationInSeconds") = none →
      extractCompositionConfig raw = .error ⟨str "durationInSeconds"⟩) ∧
    (∀ raw, (∃ i, rawLookup raw (str "id") = some (.rstr i)) →
      (∃ d, rawLookup raw (str "durationInSeconds") = some (.rnum d)) →
      rawLookup raw (str "fps") = none →
      extractCompositionConfig raw = .error ⟨str "fps"⟩) ∧
    (∀ raw, (∃ i, rawLookup raw (str "id") = some (.rstr i)) →
      (∃ d, rawLookup raw (str "durationInSeconds") = some (.rnum d)) →
      (∃ f, rawLookup raw (str "fps") = some (.rnum f)) →
      rawLookup raw (str "width") = none →
      extractCompositionConfig raw = .error ⟨str "width"⟩) ∧
    (∀ raw, (∃ i, rawLookup raw (str "id") = some (.rstr i)) →
      (∃ d, rawLookup raw (str "durationInSeconds") = some (.rnum d)) →
      (∃ f, rawLookup raw (str "fps") = some (.rnum f)) →
      (∃ w, rawLookup raw (str "width") = some (.rnum w)) →
      rawLookup raw (str "height") = none →
      extractCompositionConfig raw = .error ⟨str "height"⟩) ∧
    (∀ argv env m, env.extractRes = .error m →
      (main argv env).exitCode = 1 ∧
      (main argv env).events.filter isCreateTempEvent = []) := by
  refine ⟨?_, ?_, ?_, ?_, ?_, fun argv env m hex => main_extract_error argv env m hex⟩
  · intro raw h
    unfold extractCompositionConfig
    rw [h]
  · rintro raw ⟨i, hi⟩ h
    unfold extractCompositionConfig
    rw [hi, h]
  · rintro raw ⟨i, hi⟩ ⟨d, hd⟩ h
    unfold extractCompositionConfig
    rw [hi, hd, h]
  · rintro raw ⟨i, hi⟩ ⟨d, hd⟩ ⟨f, hf⟩ h
    unfold extractCompositionConfig
    rw [hi, hd, hf, h]
  · rintro raw ⟨i, hi⟩ ⟨d, hd⟩ ⟨f, hf⟩ ⟨w, hw⟩ h
    unfold extractCompositionConfig
    rw [hi, hd, hf, hw, h]

/-- The sample configuration record with its `fps` field removed. -/
def rawNoFps : RawConfig :=
  [(str "id", .rstr (str "CybersecurityShield")),
   (str "durationInSeconds", .rnum 12),
   (str "width", .rnum 3840),
   (str "height", .rnum 2160)]

/-- An environment whose extraction call fails. -/
def envNoFps : Env :=
  { envOk with extractRes := .error (str "Missing or invalid fps in compositionConfig") }

/-- Witness for C3: the sample configuration with `fps` removed is rejected
naming `fps`, and the corresponding run exits 1 without staging. -/
theorem extraction_failure_names_field_no_staging_witness :
    extractCompositionConfig rawNoFps = .error ⟨str "fps"⟩ ∧
    (main argvDemo envNoFps).exitCode = 1 ∧
    (main argvDemo envNoFps).events.filter isCreateTempEvent = [] :=
  ⟨extraction_failure_names_field_no_staging.2.2.1 rawNoFps
      ⟨str "CybersecurityShield", by decide⟩ ⟨12, by decide⟩ (by decide),
    (extraction_failure_names_field_no_staging.2.2.2.2.2 argvDemo envNoFps
      (str "Missing or invalid fps in compositionConfig") rfl).1,
    (extraction_failure_names_field_no_staging.2.2.2.2.2 argvDemo envNoFps
      (str "Missing or invalid fps in compositionConfig") rfl).2⟩

/-- C4: with no `--output` argument, the generated output path is placed in
the directory of the input and is the input base name (with the `.tsx`
extension removed), an underscore, the ISO time truncated to second
precision (19 characters) with every colon and period replaced by a hyphen,
and `.mp4`.  Also: in `main`, an absolute positional input with no
`--output` logs exactly that generated path; and the concrete instance for
`demo.tsx` matches `demo_<timestamp>.mp4`. -/
theorem default_output_path :
    (∀ p iso, (str ".tsx").isSuffixOf p = true →
      generateOutputPath p iso =
        pathJoin (pathDirname p)
          (pathBasename p (str ".tsx") ++ str "_" ++ specTimestamp iso ++ str ".mp4")) ∧
    (∀ rest env, env.validateRes = .ok () →
      (str ".tsx").isSuffixOf ('/' :: rest) = true →
      Event.logOutputPath (generateOutputPath ('/' :: rest) env.isoNow) ∈
        (main ['/' :: rest] env).events) ∧
    generateOutputPath (str "/work/demo.tsx") (str "2026-10-11T12:34:56.789Z") =
      str "/work/demo_2026-10-11T12-34-56.mp4" := by
  refine ⟨?_, ?_, by decide⟩
  · intro p iso hsuf
    unfold generateOutputPath specTimestamp
    rw [List.map_take]
  · intro rest env hval hsuf
    have hpre : (str "--").isPrefixOf ('/' :: rest) = false := by
      simp [str, List.isPrefixOf]
    have hparse : parseArgs ['/' :: rest] = some [(posKey, .varr ['/' :: rest])] := by
      simp [parseArgs, List.foldlM, parseArg1, hpre, addPositional, getProp, setKey]
    have hchoose : chooseInput [(posKey, .varr ['/' :: rest])] =
        some (.vstr ('/' :: rest)) := by
      simp [chooseInput, getProp, posKey, str, jsTruthyO, truthy, elem0]
    unfold main
    rw [hparse]
    dsimp only
    rw [hchoose]
    dsimp only [truthy]
    rw [if_pos (by simp)]
    unfold mainPipeline
    have habs : pathResolve env.cwd ('/' :: rest) = '/' :: rest := by
      simp [pathResolve]
    rw [habs, hval]
    dsimp only
    have hout : resolveOutput [(posKey, .varr ['/' :: rest])] ('/' :: rest) env =
        some (generateOutputPath ('/' :: rest) env.isoNow) := by
      simp [resolveOutput, getProp, posKey, str]
    rw [hout]
    dsimp only
    cases env.extractRes with
    | error m => simp
    | ok config =>
      dsimp only
      exact mem_pre_finishTry _ _ _ _ (by simp)

/-- C6: when the parsed arguments hold neither an `input` property nor any
positional argument, the run prints the usage message and exits 1; and in
every run the exit code is 0 exactly when the pipeline runs to rendering
completion (every validation, extraction, staging, bundling, selection or
rendering failure, and every crash, exits 1, since the exit code is the only
alternative to 0 here). -/
theorem exit_codes :
    (∀ argv env args, parseArgs argv = some args →
      getProp args (str "input") = none → getProp args posKey = none →
      main argv env = ⟨[Event.usagePrinted], 1⟩) ∧
    (∀ argv env,
      (main argv env).exitCode = 0 ↔ Event.renderComplete ∈ (main argv env).events) := by
  refine ⟨?_, main_exit_iff⟩
  intro argv env args hp hin hpos
  unfold main
  rw [hp]
  dsimp only
  have hch : chooseInput args = none := by
    unfold chooseInput
    rw [hin, hpos]
    simp [jsTruthyO]
  rw [hch]

/-- Witness for C6: the run `render-cli.js --verbose` (no input anywhere)
prints usage and exits 1; the sample successful run has exit code 0 and a
completed render. -/
theorem exit_codes_witness :
    main [str "--verbose"] envOk = ⟨[Event.usagePrinted], 1⟩ ∧
    ((main argvDemo envOk).exitCode = 0 ↔
      Event.renderComplete ∈ (main argvDemo envOk).events) :=
  ⟨exit_codes.1 [str "--verbose"] envOk [(str "verbose", .vtrue)] (by decide)
      (by decide) (by decide),
    exit_codes.2 argvDemo envOk⟩

theorem idxOf_append_eq (c : Char) (l r : JStr) (hl : c ∉ l) :
    idxOf c (l ++ c :: r) = some l.length := by
  induction l with
  | nil => simp [idxOf]
  | cons a t ih =>
    simp only [List.mem_cons, not_or] at hl
    simp only [List.cons_append, idxOf, List.append_eq]
    rw [if_neg (fun h => hl.1 h.symm), ih hl.2]
    rfl

theorem idxOf_eq_none (c : Char) (l : JStr) (hl : c ∉ l) : idxOf c l = none := by
  induction l with
  | nil => rfl
  | cons a t ih =>
    simp only [List.mem_cons, not_or] at hl
    simp only [idxOf]
    rw [if_neg (fun h => hl.1 h.symm), ih hl.2]
    rfl

theorem stripQuotes_surround (q1 q2 : Char) (core : JStr)
    (h1 : isQuoteChar q1 = true) (h2 : isQuoteChar q2 = true) :
    stripQuotes (q1 :: (core ++ [q2])) = core := by
  unfold stripQuotes
  simp [h1, h2, List.getLast?_concat, List.dropLast_concat]

theorem parseArgs_single (arg : JStr) : parseArgs [arg] = parseArg1 [] arg := by
  unfold parseArgs
  simp only [List.foldlM]
  cases parseArg1 [] arg <;> rfl

theorem parseArg1_kv (key v : JStr) (hk : '=' ∉ key) :
    parseArg1 [] (('-' :: '-' :: key) ++ '=' :: v) =
      some [(key, .vstr (stripQuotes v))] := by
  have hnotin : '=' ∉ ('-' :: '-' :: key) := by
    simp [hk]
  have hidx : idxOf '=' (('-' :: '-' :: key) ++ '=' :: v) =
      some ('-' :: '-' :: key).length :=
    idxOf_append_eq '=' ('-' :: '-' :: key) v hnotin
  unfold parseArg1
  rw [if_pos (by simp [str, List.isPrefixOf]), hidx]
  dsimp only
  rw [if_pos (by simp)]
  rw [List.take_left]
  have hdrop : (('-' :: '-' :: key) ++ '=' :: v).drop (('-' :: '-' :: key).length + 1)
      = v := by
    rw [show ('-' :: '-' :: key) ++ '=' :: v = (('-' :: '-' :: key) ++ ['=']) ++ v by simp]
    rw [show ('-' :: '-' :: key).length + 1 = (('-' :: '-' :: key) ++ ['=']).length by simp]
    exact List.drop_left _ _
  rw [hdrop]
  rfl

/-- An all-succeed environment whose rendering call fails, for observing the
verbose stack trace. -/
def envC10 : Env := { envOk with renderRes := .error (str "render crashed") }

/-- C10: `parseArgs` strips one layer of surrounding quotes (single or
double, independently at each end) from the value of every `--key=value`
argument, and maps every `--flag` argument without an equals sign to the
boolean `true`; concretely, `--verbose` on a failing run makes the stack
trace print. -/
theorem parse_args_quotes_and_flags :
    (∀ key core q1 q2, isQuoteChar q1 = true → isQuoteChar q2 = true → '=' ∉ key →
      parseArgs [('-' :: '-' :: key) ++ '=' :: (q1 :: (core ++ [q2]))] =
        some [(key, .vstr core)]) ∧
    (∀ key, '=' ∉ key → parseArgs ['-' :: '-' :: key] = some [(key, .vtrue)]) ∧
    Event.stackPrinted ∈ (main [str "/work/demo.tsx", str "--verbose"] envC10).events := by
  refine ⟨?_, ?_, by decide⟩
  · intro key core q1 q2 h1 h2 hk
    rw [parseArgs_single, parseArg1_kv key _ hk, stripQuotes_surround q1 q2 core h1 h2]
  · intro key hk
    rw [parseArgs_single]
    have hnotin : '=' ∉ ('-' :: '-' :: key) := by simp [hk]
    unfold parseArg1
    rw [if_pos (by simp [str, List.isPrefixOf]), idxOf_eq_none '=' _ hnotin]
    rfl

/-- Witness for C10: `--output="out.mp4"` yields the unquoted value, and
`--verbose` becomes the boolean `true`. -/
theorem parse_args_quotes_and_flags_witness :
    parseArgs [('-' :: '-' :: str "output") ++ '=' ::
        (dquote :: (str "out.mp4" ++ [dquote]))] =
      some [(str "output", .vstr (str "out.mp4"))] ∧
    parseArgs ['-' :: '-' :: str "verbose"] = some [(str "verbose", .vtrue)] :=
  ⟨parse_args_quotes_and_flags.1 (str "output") (str "out.mp4") dquote dquote
      (by decide) (by decide) (by decide),
    parse_args_quotes_and_flags.2.1 (str "verbose") (by decide)⟩

/-- The arguments object produced for `--input= bar`: the `input` property
holds the empty string and `bar` is positional. -/
def args9 : Args := [(posKey, .varr [str "bar"]), (str "input", .vstr [])]

/-- C9 counterexample: with `--input=` (supplied, but with empty value) and
positional `bar`, the JS expression `args.input || positional[0]` treats the
empty string as falsy and uses the positional argument even though `--input`
was supplied — the run validates `/work/bar`. -/
theorem positional_used_despite_input_flag :
    parseArgs [str "--input=", str "bar"] = some args9 ∧
    getProp args9 (str "input") = some (.vstr []) ∧
    chooseInput args9 = some (.vstr (str "bar")) ∧
    Event.validateCall (str "/work/bar") ∈
      (main [str "--input=", str "bar"] envOk).events := by
  refine ⟨by decide, by decide, by decide, by decide⟩

/-- C9 (amended): the `--input` value is used whenever it is truthy — a
nonempty string (or the bare-flag boolean) — and the first positional
argument is used when `--input` is absent or its value is the empty string. -/
theorem input_flag_precedence (args : Args) :
    (∀ s, getProp args (str "input") = some (.vstr s) → s ≠ [] →
      chooseInput args = some (.vstr s)) ∧
    (getProp args (str "input") = some .vtrue → chooseInput args = some .vtrue) ∧
    (∀ x xs,
      (getProp args (str "input") = none ∨ getProp args (str "input") = some (.vstr [])) →
      getProp args posKey = some (.varr (x :: xs)) →
      chooseInput args = some (.vstr x)) := by
  refine ⟨?_, ?_, ?_⟩
  · intro s h hs
    unfold chooseInput
    rw [h]
    simp [jsTruthyO, truthy, hs]
  · intro h
    unfold chooseInput
    rw [h]
    simp [jsTruthyO, truthy]
  · intro x xs hin hpos
    unfold chooseInput
    rcases hin with h | h <;>
      rw [h, hpos] <;> simp [jsTruthyO, truthy, elem0]

/-- Witness for the amended C9 theorem: a nonempty `--input` wins; an empty
`--input` falls back to the positional argument. -/
theorem input_flag_precedence_witness :
    chooseInput [(str "input", .vstr (str "x.tsx"))] = some (.vstr (str "x.tsx")) ∧
    chooseInput args9 = some (.vstr (str "bar")) :=
  ⟨(input_flag_precedence [(str "input", .vstr (str "x.tsx"))]).1 (str "x.tsx")
      (by decide) (by decide),
    (input_flag_precedence args9).2.2 (str "bar") [] (Or.inr (by decide)) (by decide)⟩

/-- C8: the webpack override passed to the bundling collaborator prepends
the renderer node_modules directory ahead of all pre-existing entries of
both the module-resolution and the loader-resolution search paths, keeping
the pre-existing entries after it (when a `modules` list is present — even
an empty one, since a JS array is truthy — the result is exactly the
renderer directory consed onto it; when absent, onto the webpack default
`[node_modules]`). -/
theorem webpack_override_prepends (rendererNodeModules : JStr) (cfg : WebpackConfig) :
    (∀ ms, cfg.resolve.bind ResolveSection.modules = some ms →
      (webpackOverride rendererNodeModules cfg).resolve =
        some ⟨some (rendererNodeModules :: ms)⟩) ∧
    (cfg.resolve.bind ResolveSection.modules = none →
      (webpackOverride rendererNodeModules cfg).resolve =
        some ⟨some (rendererNodeModules :: [str "node_modules"])⟩) ∧
    (∀ ms, cfg.resolveLoader.bind ResolveSection.modules = some ms →
      (webpackOverride rendererNodeModules cfg).resolveLoader =
        some ⟨some (rendererNodeModules :: ms)⟩) ∧
    (cfg.resolveLoader.bind ResolveSection.modules = none →
      (webpackOverride rendererNodeModules cfg).resolveLoader =
        some ⟨some (rendererNodeModules :: [str "node_modules"])⟩) := by
  refine ⟨?_, ?_, ?_, ?_⟩
  · intro ms h
    unfold webpackOverride
    rw [h]
    rfl
  · intro h
    unfold webpackOverride
    rw [h]
    rfl
  · intro ms h
    unfold webpackOverride
    rw [h]
    rfl
  · intro h
    unfold webpackOverride
    rw [h]
    rfl

/-- A webpack configuration with one pre-existing module search entry and
no loader section. -/
def cfgWebpack : WebpackConfig := ⟨some ⟨some [str "/user/project/node_modules"]⟩, none⟩

/-- Witness for C8 at `cfgWebpack`. -/
theorem webpack_override_prepends_witness :
    (webpackOverride (str "/renderer/node_modules") cfgWebpack).resolve =
      some ⟨some (str "/renderer/node_modules" :: [str "/user/project/node_modules"])⟩ ∧
    (webpackOverride (str "/renderer/node_modules") cfgWebpack).resolveLoader =
      some ⟨some (str "/renderer/node_modules" :: [str "node_modules"])⟩ :=
  ⟨(webpack_override_prepends (str "/renderer/node_modules") cfgWebpack).1
      [str "/user/project/node_modules"] rfl,
    (webpack_override_prepends (str "/renderer/node_modules") cfgWebpack).2.2.2 rfl⟩

/-- A message of the unresolved-dependency shape: the literal
`Can\x27t resolve \x27` followed by the module name and a closing quote. -/
def cantResolveMsg (m : JStr) : JStr := cantResolvePat ++ m ++ [apos]

/-- An unresolved-dependency message that lacks the `Module not found`
prefix webpack normally adds. -/
def msgBare : JStr := cantResolveMsg (str "foo-bar")

/-- A full webpack-style unresolved-dependency message naming `foo-bar`. -/
def msgModuleNotFound : JStr := str "Module not found: Error: " ++ cantResolveMsg (str "foo-bar")

/-- An environment whose bundling call fails with the bare message. -/
def envC7 : Env := { envOk with bundleRes := .error msgBare }

/-- An environment whose bundling call fails with the full webpack message. -/
def envC7M : Env := { envOk with bundleRes := .error msgModuleNotFound }

/-- C7 counterexample: a failure message containing the shape
`Can\x27t resolve \x27foo-bar\x27` but not the substring `Module not found`
produces no diagnostic at all — the module-name branch (line 214) is only
reached when the message contains `Module not found` (line 213), so the
claim as stated (for every failure whose message contains the shape) fails. -/
theorem module_hint_needs_module_not_found :
    extractModuleName msgBare = some (str "foo-bar") ∧
    diagnosticHints msgBare = [] ∧
    moduleHintsOf (main argvDemo envC7) = [] := by
  refine ⟨by decide, by decide, by decide⟩

/-- C7 (amended): for every failure whose message contains
`Module not found` and not `compositionConfig`, when the regex
`Can\x27t resolve \x27([^\x27]+)\x27` matches, the diagnostic names exactly the
captured module, and when it does not match a generic dependency hint is
printed instead; the webpack-style message naming `foo-bar` propagates
through a failing run as a hint naming exactly `foo-bar`. -/
theorem unresolved_dependency_hint :
    (∀ msg, sContains msg (str "Module not found") = true →
      sContains msg (str "compositionConfig") = false →
      (∀ m, extractModuleName msg = some m →
        diagnosticHints msg = [Event.hintModuleMissing m]) ∧
      (extractModuleName msg = none →
        diagnosticHints msg = [Event.hintGenericDep])) ∧
    moduleHintsOf (main argvDemo envC7M) = [str "foo-bar"] := by
  refine ⟨?_, by decide⟩
  intro msg hmnf hncc
  unfold diagnosticHints
  rw [hmnf, hncc]
  constructor
  · intro m hm
    rw [hm]
    simp
  · intro hm
    rw [hm]
    simp

/-- Witness for C7: the full webpack message, for which the hint names
exactly `foo-bar`. -/
theorem unresolved_dependency_hint_witness :
    diagnosticHints msgModuleNotFound = [Event.hintModuleMissing (str "foo-bar")] :=
  (unresolved_dependency_hint.1 msgModuleNotFound (by decide) (by decide)).1
    (str "foo-bar") (by decide)

/-- An all-succeed environment whose bundling collaborator delivers the
progress callbacks 3/2 then 1. -/
def envC5 : Env := { envOk with bundleProgressCbs := [mkRat 3 2, 1] }

/-- C5 counterexample: the orchestrator neither clamps nor monotonizes the
progress it reports.  With bundling callbacks 3/2 then 1 the reported
percent values are 150 then 100: out of range and decreasing. -/
theorem progress_not_clamped :
    reportedBundle (main argvDemo envC5) = [150, 100] ∧
    ¬ (List.Chain' (· ≤ ·) (reportedBundle (main argvDemo envC5)) ∧
        ∀ n ∈ reportedBundle (main argvDemo envC5), 0 ≤ n ∧ n ≤ 100) := by
  refine ⟨by decide, ?_⟩
  rw [(by decide : reportedBundle (main argvDemo envC5) = [150, 100])]
  rintro ⟨hchain, hmem⟩
  have := (hmem 150 (by simp)).2
  omega

/-- C5 (amended): the orchestrator passes each progress value `p` through as
`round(p * 100)` without clamping or monotonizing; consequently the reported
values within the bundling phase and within the rendering phase are
monotonically non-decreasing and within [0, 100] percent — that is,
correspond to values in [0, 1] — whenever the collaborator delivers
non-decreasing callback values in [0, 1] (which the claim assumed held
unconditionally). -/
theorem progress_reports_monotone_bounded (argv : List JStr) (env : Env)
    (hbc : List.Chain' (· ≤ ·) env.bundleProgressCbs)
    (hbb : ∀ p ∈ env.bundleProgressCbs, 0 ≤ p ∧ p ≤ 1)
    (hrc : List.Chain' (· ≤ ·) env.renderProgressCbs)
    (hrb : ∀ p ∈ env.renderProgressCbs, 0 ≤ p ∧ p ≤ 1) :
    (List.Chain' (· ≤ ·) (reportedBundle (main argv env)) ∧
      ∀ n ∈ reportedBundle (main argv env), 0 ≤ n ∧ n ≤ 100) ∧
    (List.Chain' (· ≤ ·) (reportedRender (main argv env)) ∧
      ∀ n ∈ reportedRender (main argv env), 0 ≤ n ∧ n ≤ 100) := by
  constructor
  · rcases main_reportedBundle argv env with h | h
    · simp [h]
    · rw [h]
      constructor
      · rw [List.chain'_map]
        refine hbc.imp (fun a b hab => ?_)
        exact jsRound_mono (by rw [qMul_eq_mul, qMul_eq_mul]; nlinarith)
      · intro n hn
        rcases List.mem_map.mp hn with ⟨p, hp, rfl⟩
        exact jsRound_percent_bounds (hbb p hp).1 (hbb p hp).2
  · rcases main_reportedRender argv env with h | h
    · simp [h]
    · rw [h]
      constructor
      · rw [List.chain'_map]
        refine hrc.imp (fun a b hab => ?_)
        exact jsRound_mono (by rw [qMul_eq_mul, qMul_eq_mul]; nlinarith)
      · intro n hn
        rcases List.mem_map.mp hn with ⟨p, hp, rfl⟩
        exact jsRound_percent_bounds (hrb p hp).1 (hrb p hp).2

/-- An all-succeed environment with in-range, non-decreasing progress
callbacks in both streaming phases. -/
def envC5W : Env :=
  { envOk with bundleProgressCbs := [0, mkRat 1 2, 1], renderProgressCbs := [mkRat 1 4, 1] }

/-- Witness for the amended C5 theorem at the in-range run `envC5W`. -/
theorem progress_reports_monotone_bounded_witness :
    (List.Chain' (· ≤ ·) (reportedBundle (main argvDemo envC5W)) ∧
      ∀ n ∈ reportedBundle (main argvDemo envC5W), 0 ≤ n ∧ n ≤ 100) ∧
    (List.Chain' (· ≤ ·) (reportedRender (main argvDemo envC5W)) ∧
      ∀ n ∈ reportedRender (main argvDemo envC5W), 0 ≤ n ∧ n ≤ 100) :=
  progress_reports_monotone_bounded argvDemo envC5W
    (List.chain'_cons.mpr ⟨by decide, List.chain'_cons.mpr ⟨by decide,
      List.chain'_singleton _⟩⟩)
    (by decide)
    (List.chain'_cons.mpr ⟨by decide, List.chain'_singleton _⟩)
    (by decide)

/-- Witness for C4: the sample absolute input `/work/demo.tsx` with the
sample clock; both universally quantified parts applied at it. -/
theorem default_output_path_witness :
    generateOutputPath (str "/work/demo.tsx") (str "2026-10-11T12:34:56.789Z") =
      pathJoin (pathDirname (str "/work/demo.tsx"))
        (pathBasename (str "/work/demo.tsx") (str ".tsx") ++ str "_" ++
          specTimestamp (str "2026-10-11T12:34:56.789Z") ++ str ".mp4") ∧
    Event.logOutputPath (generateOutputPath ('/' :: str "work/demo.tsx") envOk.isoNow) ∈
      (main ['/' :: str "work/demo.tsx"] envOk).events :=
  ⟨default_output_path.1 (str "/work/demo.tsx") (str "2026-10-11T12:34:56.789Z")
      (by decide),
    default_output_path.2.1 (str "work/demo.tsx") envOk rfl (by decide)⟩

end RenderCli
